import Mathlib

/-
Verification development for the Team Productivity Reporting Platform's
natural-language query interpreter (`TextQueryService` in
`backend/src/services/textQuery.service.ts`).

The TypeScript service is shallowly embedded here:

* Strings are handled as `List Char` after JavaScript-style lowercasing and
  trimming (the service only builds ASCII text, where Lean's and
  JavaScript's case conversion and trimming agree).
* JavaScript numbers are modelled as `Int` / `ℚ`; `Math.round x` is
  `⌊x + 1/2⌋`, which is exactly `Math.round`'s rounding rule.
* The Prisma store is a `Store` structure of lists (table order = list
  order); the `DB` type adds the possibility that the store is unreachable,
  so a Prisma call rejects.  A handler whose body has its own
  `try`/`catch` is total (`Envelope`); a handler without one returns
  `Except Unit Envelope`, where `.error` is a rejected promise.
* The six `queryPatterns` regexes are embedded with a small backtracking
  matcher (`Rx` / `mch`) that mirrors JavaScript regex semantics for the
  constructs the service uses: ordered alternation, greedy `.*` / `\s*` /
  `[...]+`, optional groups, and numbered capture groups, searched at the
  leftmost possible start position.
-/

namespace TPRP

/-! ### JavaScript-style character and string helpers -/

/-- ASCII lowercasing, as `String.prototype.toLowerCase` acts on ASCII.
(Spelled out letter by letter so that it evaluates by kernel reduction.) -/
def jsLowerChar (c : Char) : Char :=
  match c with
  | 'A' => 'a' | 'B' => 'b' | 'C' => 'c' | 'D' => 'd' | 'E' => 'e' | 'F' => 'f'
  | 'G' => 'g' | 'H' => 'h' | 'I' => 'i' | 'J' => 'j' | 'K' => 'k' | 'L' => 'l'
  | 'M' => 'm' | 'N' => 'n' | 'O' => 'o' | 'P' => 'p' | 'Q' => 'q' | 'R' => 'r'
  | 'S' => 's' | 'T' => 't' | 'U' => 'u' | 'V' => 'v' | 'W' => 'w' | 'X' => 'x'
  | 'Y' => 'y' | 'Z' => 'z' | other => other

def jsLower (l : List Char) : List Char := l.map jsLowerChar

/-- Whitespace recognized by JavaScript `\s` and `trim` (ASCII part plus
NBSP; the service's queries and literals only involve the ASCII part). -/
def jsIsWs (c : Char) : Bool :=
  c == ' ' || c == '\t' || c == '\n' || c == '\r' ||
  c == '\x0b' || c == '\x0c' || c == '\u00A0'

/-- `String.prototype.trim`: drop whitespace from both ends. -/
def jsTrim (l : List Char) : List Char :=
  ((l.dropWhile jsIsWs).reverse.dropWhile jsIsWs).reverse

/-- Characters matched by JavaScript `.` (anything but a line terminator). -/
def jsDotChar (c : Char) : Bool :=
  !(c == '\n' || c == '\r' || c == '\u2028' || c == '\u2029')

/-- The character class `[a-zA-Z0-9\s]` used for team-name captures. -/
def teamChar (c : Char) : Bool :=
  ('a' ≤ c && c ≤ 'z') || ('A' ≤ c && c ≤ 'Z') || ('0' ≤ c && c ≤ '9') || jsIsWs c

/-- Does `n` occur at the head of `h`? -/
def headMatch : List Char → List Char → Bool
  | [], _ => true
  | _ :: _, [] => false
  | a :: as, b :: bs => a == b && headMatch as bs

/-- Substring test, as `String.prototype.includes`. -/
def subList (n : List Char) : List Char → Bool
  | [] => n.isEmpty
  | c :: cs => headMatch n (c :: cs) || subList n cs

/-! ### JavaScript numeric rounding -/

/-- `Math.round`: round half toward positive infinity. -/
def jsRound (x : ℚ) : ℤ := ⌊x + 1/2⌋

/-- `Math.round(x * 100) / 100`: round to two decimal places. -/
def round2 (x : ℚ) : ℚ := (jsRound (x * 100) : ℚ) / 100

/-! ### Data model (Prisma schema, read-only view) -/

inductive TicketType where
  | FEATURE | BUG | TASK | EPIC
deriving DecidableEq, Repr

inductive TicketStatus where
  | TODO | IN_PROGRESS | IN_REVIEW | TESTING | DONE
deriving DecidableEq, Repr

structure Team where
  id : Nat
  name : String
deriving DecidableEq, Repr

structure Sprint where
  id : Nat
  teamId : Nat
  endDate : Int
deriving DecidableEq, Repr

structure Member where
  id : Nat
  teamId : Nat
deriving DecidableEq, Repr

structure Ticket where
  id : Nat
  teamId : Nat
  sprintId : Option Nat
  type : TicketType
  status : TicketStatus
  storyPoints : Option Int
  createdAt : Int
  resolvedAt : Option Int
deriving DecidableEq, Repr

/-- The relational store.  `now` is the clock value used by
`subDays(new Date(), 90)`.  Timestamps are milliseconds since the epoch.
The schema's foreign keys (`ON DELETE RESTRICT`) guarantee every
`teamId` on tickets, sprints and members names an existing team. -/
structure Store where
  teams : List Team
  members : List Member
  sprints : List Sprint
  tickets : List Ticket
  now : Int
deriving DecidableEq, Repr

/-- The aggregation layer: either the store answers, or every call to it
fails (a rejected Prisma promise). -/
inductive DB where
  | ok (s : Store)
  | down
deriving DecidableEq, Repr

/-! ### A small backtracking regex matcher

Exactly the constructs appearing in `queryPatterns` are supported.  The
stars and pluses in those regexes only ever apply to single-character
classes (`.*`, `\s*`, `[a-zA-Z0-9\s]+`), which keeps the matcher simple.
Alternation is ordered (leftmost alternative first) and quantifiers are
greedy with backtracking, as in JavaScript. -/

inductive Rx where
  /-- A literal string (already lowercase, like the normalized input). -/
  | lit (s : List Char)
  /-- Ordered alternation `a|b`. -/
  | alt2 (a b : Rx)
  /-- Sequencing `ab`. -/
  | seq2 (a b : Rx)
  /-- Greedy `c*` over a character class. -/
  | starCls (p : Char → Bool)
  /-- Greedy `c+` over a character class. -/
  | plusCls (p : Char → Bool)
  /-- Greedy option `r?`. -/
  | opt (r : Rx)
  /-- Numbered capture group `(r)`. -/
  | grp (n : Nat) (r : Rx)

/-- Captures recorded so far: group number paired with captured text. -/
abbrev Caps := List (Nat × List Char)

/-- Length of the maximal prefix of `cs` whose characters satisfy `p`. -/
def runLen (p : Char → Bool) : List Char → Nat
  | [] => 0
  | c :: cs => if p c then runLen p cs + 1 else 0

/-- Greedy star: hand the continuation `j` characters for `j = n, …, 0`,
longest first, until it succeeds. -/
def starLoop (k : List Char → Option Caps) (cs : List Char) : Nat → Option Caps
  | 0 => k cs
  | j + 1 =>
      match k (cs.drop (j + 1)) with
      | some r => some r
      | none => starLoop k cs j

/-- Greedy plus: like `starLoop` but at least one character. -/
def plusLoop (k : List Char → Option Caps) (cs : List Char) : Nat → Option Caps
  | 0 => none
  | j + 1 =>
      match k (cs.drop (j + 1)) with
      | some r => some r
      | none => plusLoop k cs j

/-- Match `r` against a prefix of `cs` in continuation-passing style; the
continuation receives the rest of the input and the captures made so far.
Backtracking arises from trying alternatives / split points in order. -/
def mch : Rx → List Char → Caps → (List Char → Caps → Option Caps) → Option Caps
  | .lit s, cs, caps, k =>
      if headMatch s cs then k (cs.drop s.length) caps else none
  | .alt2 a b, cs, caps, k =>
      match mch a cs caps k with
      | some r => some r
      | none => mch b cs caps k
  | .seq2 a b, cs, caps, k =>
      mch a cs caps (fun rest caps' => mch b rest caps' k)
  | .starCls p, cs, caps, k =>
      starLoop (fun rest => k rest caps) cs (runLen p cs)
  | .plusCls p, cs, caps, k =>
      plusLoop (fun rest => k rest caps) cs (runLen p cs)
  | .opt r, cs, caps, k =>
      match mch r cs caps k with
      | some res => some res
      | none => k cs caps
  | .grp n r, cs, caps, k =>
      mch r cs caps fun rest caps' =>
        k rest ((n, cs.take (cs.length - rest.length)) :: caps')

/-- Search for a match at the leftmost possible start position, like
`String.prototype.match` with a non-anchored pattern.  Returns the
captures of the first match found, `none` if the regex matches nowhere. -/
def rxSearch (r : Rx) : List Char → Option Caps
  | [] => mch r [] [] (fun _ caps => some caps)
  | c :: rest =>
      match mch r (c :: rest) [] (fun _ caps => some caps) with
      | some caps => some caps
      | none => rxSearch r rest

/-- `match[n]`: the captured text of group `n`, if that group matched. -/
def capLookup (n : Nat) (caps : Caps) : Option (List Char) :=
  (caps.find? (fun p => p.1 == n)).map (·.2)

/-! ### The six `queryPatterns` of `TextQueryService` -/

/-- A literal regex piece. -/
def L (s : String) : Rx := .lit s.toList

/-- Ordered alternation of several pieces, left to right. -/
def altL : List Rx → Rx
  | [] => L ""
  | [r] => r
  | r :: rs => .alt2 r (altL rs)

/-- Sequencing of several pieces, left to right. -/
def seqL : List Rx → Rx
  | [] => L ""
  | [r] => r
  | r :: rs => .seq2 r (seqL rs)

/-- `.*` -/
def dotStar : Rx := .starCls jsDotChar

/-- `\s*` -/
def wsStar : Rx := .starCls jsIsWs

/-- The shared tail `(for|of)?\s*(?:team\s*)?([a-zA-Z0-9\s]+)?` of
patterns 1, 2 and 4 (group numbers `g` and `g+1`). -/
def teamTail (g : Nat) : Rx :=
  seqL [.opt (.grp g (altL [L "for", L "of"])), wsStar,
        .opt (.seq2 (L "team") wsStar), .opt (.grp (g+1) (.plusCls teamChar))]

/-- `/(show|display|get|what is|what are|view).*(velocity|story points|sprint).*(for|of)?\s*(?:team\s*)?([a-zA-Z0-9\s]+)?/i` -/
def pattern1 : Rx :=
  seqL [.grp 1 (altL [L "show", L "display", L "get", L "what is", L "what are", L "view"]),
        dotStar,
        .grp 2 (altL [L "velocity", L "story points", L "sprint"]),
        dotStar, teamTail 3]

/-- `/(how many|count|number of|total).*(bugs|defects|issues).*(for|of)?\s*(?:team\s*)?([a-zA-Z0-9\s]+)?/i` -/
def pattern2 : Rx :=
  seqL [.grp 1 (altL [L "how many", L "count", L "number of", L "total"]),
        dotStar,
        .grp 2 (altL [L "bugs", L "defects", L "issues"]),
        dotStar, teamTail 3]

/-- `/(average|mean|median).*(resolution|fix|close).*(time|duration).*(for|of)?\s*(?:team\s*)?([a-zA-Z0-9\s]+)?/i` -/
def pattern3 : Rx :=
  seqL [.grp 1 (altL [L "average", L "mean", L "median"]),
        dotStar,
        .grp 2 (altL [L "resolution", L "fix", L "close"]),
        dotStar,
        .grp 3 (altL [L "time", L "duration"]),
        dotStar, teamTail 4]

/-- `/(completed|done|finished).*(tickets|tasks|items).*(for|of)?\s*(?:team\s*)?([a-zA-Z0-9\s]+)?/i` -/
def pattern4 : Rx :=
  seqL [.grp 1 (altL [L "completed", L "done", L "finished"]),
        dotStar,
        .grp 2 (altL [L "tickets", L "tasks", L "items"]),
        dotStar, teamTail 3]

/-- `/(team|squad|group).*(performance|metrics|stats|statistics)/i` -/
def pattern5 : Rx :=
  seqL [.grp 1 (altL [L "team", L "squad", L "group"]),
        dotStar,
        .grp 2 (altL [L "performance", L "metrics", L "stats", L "statistics"])]

/-- `/(q1|q2|q3|q4|quarter|trend|period)/i` -/
def pattern6 : Rx :=
  .grp 1 (altL [L "q1", L "q2", L "q3", L "q4", L "quarter", L "trend", L "period"])

/-- The ordered rule list of `TextQueryService.queryPatterns`. -/
def patRules : List Rx := [pattern1, pattern2, pattern3, pattern4, pattern5, pattern6]

/-- `query.toLowerCase().trim()` as a character list. -/
def normOf (query : String) : List Char := jsTrim (jsLower query.toList)

/-- First pattern (by index, starting at `i`) that matches, together with
its captures — the `for … of this.queryPatterns` loop. -/
def firstPatAux (rs : List Rx) (cs : List Char) (i : Nat) : Option (Nat × Caps) :=
  match rs with
  | [] => none
  | r :: rest =>
      match rxSearch r cs with
      | some caps => some (i, caps)
      | none => firstPatAux rest cs (i + 1)

/-- `match[4]?.trim() || 'all'`: the team token a matched pattern passes
to its handler. -/
def teamTokenOf (caps : Caps) : String :=
  match capLookup 4 caps with
  | none => "all"
  | some c =>
      let t := jsTrim c
      if t.isEmpty then "all" else String.mk t

/-! ### Result envelope and payloads -/

/-- Per-team accumulator of the completed-tickets handler. -/
structure TeamStat where
  completed : Nat
  storyPoints : Int
deriving DecidableEq, Repr

/-- One row of the team-performance handler's result array. -/
structure PerfEntry where
  teamName : String
  memberCount : Nat
  totalTickets : Nat
  completedTickets : Nat
  completionRate : Int
  bugCount : Nat
  bugRate : Int
deriving DecidableEq, Repr

/-- The structured `result` payloads the handlers build. -/
inductive Payload where
  | velocity (team : String) (averageVelocity : ℚ) (sprintsAnalyzed : Nat)
      (timePeriod : String)
  | bugs (team : String) (totalTickets bugTickets : Nat) (bugRate : ℚ)
      (timePeriod : String)
  | resolution (averageResolutionTime : ℚ) (ticketsAnalyzed : Nat) (unit : String)
  | completed (totalCompleted : Nat) (byTeam : List (String × TeamStat))
  | performance (entries : List PerfEntry)
deriving DecidableEq, Repr

/-- The `TextQueryResult` envelope: `{ query, result, interpretation }`. -/
structure Envelope where
  query : String
  result : Option Payload
  interpretation : String
deriving DecidableEq, Repr

/-! ### Store queries (the Prisma calls the handlers make) -/

/-- `prisma.team.findFirst({ where: { name: { equals: teamName, mode:
'insensitive' } } })`. -/
def findTeamI (s : Store) (teamName : String) : Option Team :=
  s.teams.find? (fun t => jsLower t.name.toList == jsLower teamName.toList)

/-- `orderBy: { endDate: 'desc' }` on sprints. -/
def byEndDesc (a b : Sprint) : Prop := b.endDate ≤ a.endDate

instance : DecidableRel byEndDesc := fun a b => Int.decLe _ _

instance : IsTotal Sprint byEndDesc := ⟨fun a b => le_total b.endDate a.endDate⟩

instance : IsTrans Sprint byEndDesc := ⟨fun _ _ _ h1 h2 => le_trans h2 h1⟩

def orderByEndDesc (l : List Sprint) : List Sprint := l.insertionSort byEndDesc

/-- Sprints of one team, most recently ended first, at most 5
(`include: { sprints: { …, orderBy: { endDate: 'desc' }, take: 5 } }`). -/
def teamSprints5 (s : Store) (t : Team) : List Sprint :=
  (orderByEndDesc (s.sprints.filter (fun sp => sp.teamId == t.id))).take 5

/-- `prisma.sprint.findMany({ …, orderBy: { endDate: 'desc' }, take: 5 })`. -/
def allSprints5 (s : Store) : List Sprint :=
  (orderByEndDesc s.sprints).take 5

/-- A sprint's included `tickets: { where: { status: 'DONE' } }`. -/
def sprintDoneTickets (s : Store) (sp : Sprint) : List Ticket :=
  s.tickets.filter (fun t => t.sprintId == some sp.id && t.status == .DONE)

/-- `subDays(new Date(), 90)` in milliseconds. -/
def cutoff90 (s : Store) : Int := s.now - 90 * 86400000

/-- `prisma.ticket.count` over the last 90 days, optionally team-filtered. -/
def countTickets90 (s : Store) (team : Option Team) : Nat :=
  (s.tickets.filter (fun t =>
    (match team with | some tm => t.teamId == tm.id | none => true) &&
    decide (cutoff90 s ≤ t.createdAt))).length

/-- Same count restricted to `type: 'BUG'`. -/
def countBugs90 (s : Store) (team : Option Team) : Nat :=
  (s.tickets.filter (fun t =>
    (match team with | some tm => t.teamId == tm.id | none => true) &&
    t.type == .BUG && decide (cutoff90 s ≤ t.createdAt))).length

/-- `prisma.ticket.findMany({ where: { status: 'DONE', resolvedAt: { not:
null } } })`. -/
def doneResolved (s : Store) : List Ticket :=
  s.tickets.filter (fun t => t.status == .DONE && t.resolvedAt.isSome)

/-- `prisma.ticket.findMany({ where: { status: 'DONE' } })`. -/
def doneTicketsOf (s : Store) : List Ticket :=
  s.tickets.filter (fun t => t.status == .DONE)

/-- `ticket.team.name` via the ticket's foreign key.  The schema's
`tickets_teamId_fkey` (ON DELETE RESTRICT) makes the lookup total; the
`""` default is unreachable on schema-conformant stores. -/
def ticketTeamName (s : Store) (t : Ticket) : String :=
  ((s.teams.find? (fun tm => tm.id == t.teamId)).map Team.name).getD ""

/-- A team's tickets, as included by `team.findMany`. -/
def teamTickets (s : Store) (t : Team) : List Ticket :=
  s.tickets.filter (fun tk => tk.teamId == t.id)

/-- A team's members, as included by `team.findMany`. -/
def teamMembers (s : Store) (t : Team) : List Member :=
  s.members.filter (fun m => m.teamId == t.id)

/-! ### Intent handlers -/

def notFoundMsg (teamName : String) : String :=
  "Team \"" ++ teamName ++ "\" not found. Try one of our team names."

/-- Shared body of the velocity handler once the team is resolved
(`team = none` is the unfiltered "all" mode). -/
def velocityEnvelope (s : Store) (query teamName : String) (team : Option Team) :
    Envelope :=
  let sprints := match team with
    | some t => teamSprints5 s t
    | none => allSprints5 s
  let totalVelocity : Int :=
    sprints.foldl (fun sum sp =>
      sum + (sprintDoneTickets s sp).foldl
        (fun sprintSum tk => sprintSum + tk.storyPoints.getD 0) 0) 0
  let avgVelocity : ℚ :=
    if sprints.length > 0 then (totalVelocity : ℚ) / (sprints.length : ℚ) else 0
  let label := if teamName == "all" then "All Teams" else (team.map Team.name).getD ""
  { query := query
    result := some (.velocity label (round2 avgVelocity) sprints.length "last 5 sprints")
    interpretation :=
      "Average velocity " ++
      (if teamName == "all" then "across all teams"
       else "for " ++ (team.map Team.name).getD "") ++
      " is " ++ toString (jsRound avgVelocity) ++
      " story points per sprint (last 5 sprints)." }

/-- `handleVelocityQuery` — has its own `try`/`catch`, so it always
resolves to an envelope, even when the store is down. -/
def handleVelocityQuery (db : DB) (query teamName : String) : Envelope :=
  match db with
  | .down =>
      { query := query, result := none
        interpretation := "Failed to retrieve velocity data. Please try again later." }
  | .ok s =>
      if teamName == "all" then velocityEnvelope s query teamName none
      else
        match findTeamI s teamName with
        | none => { query := query, result := none, interpretation := notFoundMsg teamName }
        | some t => velocityEnvelope s query teamName (some t)

/-- Shared body of the bug-count handler once the team is resolved. -/
def bugEnvelope (s : Store) (query teamName : String) (team : Option Team) :
    Envelope :=
  let totalTickets := countTickets90 s team
  let bugTickets := countBugs90 s team
  let bugRate : ℚ :=
    if totalTickets > 0 then ((bugTickets : ℚ) / (totalTickets : ℚ)) * 100 else 0
  let label := if teamName == "all" then "All Teams" else (team.map Team.name).getD ""
  { query := query
    result := some (.bugs label totalTickets bugTickets (round2 bugRate) "last quarter")
    interpretation :=
      "Found " ++ toString bugTickets ++ " bugs out of " ++ toString totalTickets ++
      " total tickets " ++
      (if teamName == "all" then "across all teams"
       else "for " ++ (team.map Team.name).getD "") ++
      " in the last quarter (" ++ toString (jsRound bugRate) ++ "% bug rate)." }

/-- `handleBugCountQuery` — has its own `try`/`catch`, so it always
resolves to an envelope. -/
def handleBugCountQuery (db : DB) (query teamName : String) : Envelope :=
  match db with
  | .down =>
      { query := query, result := none
        interpretation := "Failed to retrieve bug statistics. Please try again later." }
  | .ok s =>
      if teamName == "all" then bugEnvelope s query teamName none
      else
        match findTeamI s teamName with
        | none => { query := query, result := none, interpretation := notFoundMsg teamName }
        | some t => bugEnvelope s query teamName (some t)

/-- `handleResolutionTimeQuery(query, match)` — the second parameter is
declared but never read, and the body has no `try`/`catch`: a failing
store call rejects (`.error`). -/
def handleResolutionTimeQuery (db : DB) (query : String) (m : String) :
    Except Unit Envelope :=
  match db with
  | .down => .error ()
  | .ok s =>
      let resolvedTickets := doneResolved s
      if resolvedTickets.length == 0 then
        .ok { query := query, result := none
              interpretation := "No resolved tickets found to calculate resolution time." }
      else
        let resolutionTimes : List Int :=
          resolvedTickets.map (fun t =>
            jsRound (((t.resolvedAt.getD 0 - t.createdAt : Int) : ℚ) / 86400000))
        let avgResolutionTime : ℚ :=
          ((resolutionTimes.foldl (· + ·) 0 : Int) : ℚ) / (resolutionTimes.length : ℚ)
        .ok { query := query
              result := some (.resolution (round2 avgResolutionTime)
                resolvedTickets.length "days")
              interpretation :=
                "Average resolution time is " ++ toString (jsRound avgResolutionTime) ++
                " days based on " ++ toString resolvedTickets.length ++
                " resolved tickets." }

/-- One step of the `completedTickets.reduce` accumulator: create or
update the entry keyed by team name.  JavaScript object keys keep first
insertion order. -/
def bump (name : String) (sp : Int) :
    List (String × TeamStat) → List (String × TeamStat)
  | [] => [(name, ⟨1, sp⟩)]
  | (n, st) :: rest =>
      if n == name then (n, ⟨st.completed + 1, st.storyPoints + sp⟩) :: rest
      else (n, st) :: bump name sp rest

/-- The `teamStats` object of the completed-tickets handler. -/
def teamStatsOf (s : Store) : List (String × TeamStat) :=
  (doneTicketsOf s).foldl
    (fun acc t => bump (ticketTeamName s t) (t.storyPoints.getD 0) acc) []

/-- `handleCompletedTicketsQuery(query, match)` — team argument unused,
no `try`/`catch`. -/
def handleCompletedTicketsQuery (db : DB) (query : String) (m : String) :
    Except Unit Envelope :=
  match db with
  | .down => .error ()
  | .ok s =>
      .ok { query := query
            result := some (.completed (doneTicketsOf s).length (teamStatsOf s))
            interpretation :=
              "Found " ++ toString (doneTicketsOf s).length ++
              " completed tickets across " ++ toString (teamStatsOf s).length ++
              " team(s)." }

/-- One row of the team-performance array. -/
def perfEntry (s : Store) (team : Team) : PerfEntry :=
  let tickets := teamTickets s team
  let completedTickets := tickets.filter (fun t => t.status == .DONE)
  let bugTickets := tickets.filter (fun t => t.type == .BUG)
  { teamName := team.name
    memberCount := (teamMembers s team).length
    totalTickets := tickets.length
    completedTickets := completedTickets.length
    completionRate :=
      if tickets.length > 0 then
        jsRound (((completedTickets.length : ℚ) / (tickets.length : ℚ)) * 100)
      else 0
    bugCount := bugTickets.length
    bugRate :=
      if tickets.length > 0 then
        jsRound (((bugTickets.length : ℚ) / (tickets.length : ℚ)) * 100)
      else 0 }

def perfEntries (s : Store) : List PerfEntry := s.teams.map (perfEntry s)

/-- `handleTeamPerformanceQuery(query, match)` — team argument unused,
no `try`/`catch`. -/
def handleTeamPerformanceQuery (db : DB) (query : String) (m : String) :
    Except Unit Envelope :=
  match db with
  | .down => .error ()
  | .ok s =>
      .ok { query := query
            result := some (.performance (perfEntries s))
            interpretation :=
              "Performance overview for " ++ toString s.teams.length ++
              " team(s) showing completion rates, bug rates, and team sizes." }

/-- `handleQuarterlyTrendsQuery` — delegates to the velocity handler in
"all" mode and overrides the interpretation.  Its own `try`/`catch` is
dead code because the velocity handler never rejects. -/
def handleQuarterlyTrendsQuery (db : DB) (query : String) : Envelope :=
  let result := handleVelocityQuery db query "all"
  { result with
    interpretation :=
      "Showing Q1 velocity trends across all teams. " ++
      "Try being more specific like 'Q2 bugs for Frontend team'" }

/-! ### Keyword fallback (`analyzeQueryByKeywords`) -/

/-- The five keyword categories, in declaration order. -/
inductive Cat where
  | velocity | bugs | resolution | trends | performance
deriving DecidableEq, Repr

/-- Position of a category in the declaration order. -/
def catOrd : Cat → Nat
  | .velocity => 0
  | .bugs => 1
  | .resolution => 2
  | .trends => 3
  | .performance => 4

/-- The `keywordCategories` table, verbatim. -/
def keywordCategories : List (Cat × List String) :=
  [(.velocity, ["velocity", "story point", "sprint", "throughput", "capacity"]),
   (.bugs, ["bug", "defect", "error", "issue", "failure"]),
   (.resolution, ["resolution", "fix", "close", "time", "duration"]),
   (.trends, ["trend", "q1", "q2", "q3", "q4", "quarter", "period"]),
   (.performance, ["performance", "metric", "statistic", "kpi"])]

/-- `keywords.filter(kw => queryLower.includes(kw)).length` for one
category's keyword list. -/
def hitCount (query : String) (kws : List String) : Nat :=
  (kws.filter (fun kw => subList kw.toList (jsLower query.toList))).length

/-- The `matches` array: per-category keyword hit counts, categories with
zero hits dropped. -/
def keywordMatches (query : String) : List (Cat × Nat) :=
  (keywordCategories.map (fun p => (p.1, hitCount query p.2))).filter
    (fun m => 0 < m.2)

/-- `matches.reduce((prev, current) => (prev.count > current.count) ? prev
: current)` — note that a tie keeps `current`, the later category. -/
def bestMatch (query : String) : Option (Cat × Nat) :=
  match keywordMatches query with
  | [] => none
  | m :: ms => some (ms.foldl (fun prev current =>
      if prev.2 > current.2 then prev else current) m)

/-- The static guidance envelope for unclassifiable queries. -/
def guidanceEnvelope (query : String) : Envelope :=
  { query := query, result := none
    interpretation :=
      "I didn't understand your query. Try questions like: " ++
      "'Show velocity for Frontend team', " ++
      "'How many bugs in Q2?', or " ++
      "'Average resolution time last month'" }

/-- `analyzeQueryByKeywords`.  The function is synchronous; where it
dispatches it returns the handler's promise as-is, so a handler without
its own `try`/`catch` (resolution, performance) surfaces a store failure
as a rejection here. -/
def analyzeQueryByKeywords (db : DB) (query : String) : Except Unit Envelope :=
  match bestMatch query with
  | some best =>
      match best.1 with
      | .velocity => .ok (handleVelocityQuery db query "all")
      | .bugs => .ok (handleBugCountQuery db query "all")
      | .resolution => handleResolutionTimeQuery db query "all"
      | .trends => .ok (handleQuarterlyTrendsQuery db query)
      | .performance => handleTeamPerformanceQuery db query ""
  | none => .ok (guidanceEnvelope query)

/-! ### The orchestrator (`processTextQuery`) -/

/-- Dispatch to the handler of pattern rule `k` (0-based). -/
def runHandler (db : DB) (k : Nat) (query teamName : String) :
    Except Unit Envelope :=
  match k with
  | 0 => .ok (handleVelocityQuery db query teamName)
  | 1 => .ok (handleBugCountQuery db query teamName)
  | 2 => handleResolutionTimeQuery db query teamName
  | 3 => handleCompletedTicketsQuery db query teamName
  | 4 => handleTeamPerformanceQuery db query teamName
  | _ => .ok (handleQuarterlyTrendsQuery db query)

/-- The generic catch of `processTextQuery`: a rejection awaited inside
the `try` becomes the generic error envelope. -/
def catchEnv (query : String) : Except Unit Envelope → Envelope
  | .ok e => e
  | .error _ =>
      { query := query, result := none
        interpretation :=
          "I encountered an error processing your request. " ++
          "Please try again or rephrase your question." }

/-- `processTextQuery`.  On the pattern path the handler result is
`return await`-ed inside the `try`, so rejections are converted by the
catch.  On the fallback path the code does `return
this.analyzeQueryByKeywords(query)` WITHOUT `await`: the returned promise
is adopted after the `try` block has been exited, so a rejection from the
fallback path escapes to the caller — hence the `Except` result type. -/
def processTextQuery (db : DB) (query : String) : Except Unit Envelope :=
  let normalizedQuery := normOf query
  match firstPatAux patRules normalizedQuery 0 with
  | some (k, caps) =>
      .ok (catchEnv query (runHandler db k query (teamTokenOf caps)))
  | none => analyzeQueryByKeywords db query

instance : DecidableEq (Except Unit Envelope) := fun a b =>
  match a, b with
  | .ok x, .ok y => if h : x = y then isTrue (by rw [h]) else isFalse (by simp [h])
  | .ok _, .error _ => isFalse (by simp)
  | .error _, .ok _ => isFalse (by simp)
  | .error _, .error _ => isTrue rfl

/-! ### Spec-side characterization of the keyword classifier -/

/-- The keyword list of one category (same literals as
`keywordCategories`). -/
def catKeywords : Cat → List String
  | .velocity => ["velocity", "story point", "sprint", "throughput", "capacity"]
  | .bugs => ["bug", "defect", "error", "issue", "failure"]
  | .resolution => ["resolution", "fix", "close", "time", "duration"]
  | .trends => ["trend", "q1", "q2", "q3", "q4", "quarter", "period"]
  | .performance => ["performance", "metric", "statistic", "kpi"]

/-- A category's score: how many of its keywords occur as substrings of
the lower-cased query. -/
def catCount (query : String) (c : Cat) : Nat := hitCount query (catKeywords c)

/-- The category the keyword fallback classifies a query into. -/
def bestCat (query : String) : Option Cat := (bestMatch query).map Prod.fst

/-! ### Spec-side definitions used to state the claims -/

/-- `bestMatch` specialized to five explicit counts (the shape the source
computes: filter out zero scores, then reduce). -/
def pick5 (cv cb cr ct cp : Nat) : Option Cat :=
  match ([((Cat.velocity : Cat), cv), (.bugs, cb), (.resolution, cr), (.trends, ct),
          (.performance, cp)].filter (fun m => 0 < m.2)) with
  | [] => none
  | m :: ms => some ((ms.foldl (fun prev current =>
      if prev.2 > current.2 then prev else current) m).1)

/-- Read one of five explicit counts off a category. -/
def cnt5 (cv cb cr ct cp : Nat) : Cat → Nat
  | .velocity => cv | .bugs => cb | .resolution => cr | .trends => ct
  | .performance => cp

/-- The sprints a velocity query aggregates over (`team = none` is the
unfiltered mode). -/
def usedSprints (s : Store) (team : Option Team) : List Sprint :=
  match team with
  | some t => teamSprints5 s t
  | none => allSprints5 s

/-- All sprints that qualify for the velocity query before the
most-recent-5 cut. -/
def qualSprints (s : Store) (team : Option Team) : List Sprint :=
  match team with
  | some t => s.sprints.filter (fun sp => sp.teamId == t.id)
  | none => s.sprints

/-- Spec side: per-sprint sums of story points of DONE tickets, a missing
`storyPoints` counted as 0. -/
def perSprintPoints (s : Store) (l : List Sprint) : List Int :=
  l.map (fun sp => ((sprintDoneTickets s sp).map
    (fun t => t.storyPoints.getD 0)).sum)

/-- Spec side: mean of the per-sprint sums rounded to 2 decimals, 0 for
zero sprints. -/
def specMeanVelocity (sums : List Int) : ℚ :=
  if sums.length = 0 then 0 else round2 ((sums.sum : ℚ) / (sums.length : ℚ))

/-- Spec side: `round(bugTickets/totalTickets*10000)/100` for positive
totals, 0 otherwise. -/
def specBugRate (bug total : Nat) : ℚ :=
  if 0 < total then (jsRound ((bug : ℚ) / (total : ℚ) * 10000) : ℚ) / 100 else 0

/-- Spec side: among the DONE tickets of `s`, those of the team named `n`. -/
def doneOfName (s : Store) (n : String) : List Ticket :=
  (doneTicketsOf s).filter (fun t => ticketTeamName s t == n)

/-- Sum of the per-team `completed` counters of a `byTeam` object. -/
def sumCompleted (l : List (String × TeamStat)) : Nat :=
  (l.map (fun p => p.2.completed)).sum

/-- The key set of a `byTeam` object. -/
def keysOf (l : List (String × TeamStat)) : List String := l.map Prod.fst

/-- Lookup in a `byTeam` object, defaulting to the empty accumulator. -/
def statD (n : String) : List (String × TeamStat) → TeamStat
  | [] => ⟨0, 0⟩
  | (k, st) :: tl => if k == n then st else statD n tl

/-! ### Concrete stores for counterexamples and witnesses -/

/-- Two teams; Alpha has one DONE 5-point feature resolved in 1 day in
sprint 1, Beta has one DONE 3-point bug resolved in 2 days in sprint 2.
Both tickets were created inside the 90-day window. -/
def stTwoTeams : Store :=
  { teams := [⟨1, "Alpha"⟩, ⟨2, "Beta"⟩]
    members := [⟨1, 1⟩]
    sprints := [⟨1, 1, 100⟩, ⟨2, 2, 200⟩]
    tickets := [⟨1, 1, some 1, .FEATURE, .DONE, some 5, 0, some 86400000⟩,
                ⟨2, 2, some 2, .BUG, .DONE, some 3, 0, some 172800000⟩]
    now := 1000000 }

/-! ## Theorems

Everything from here on is a proof about the definitions above: general
helper lemmas first, then the claim theorems with their witnesses and
counterexamples. -/

theorem headMatch_append (n s : List Char) : headMatch n (n ++ s) = true := by
  induction n with
  | nil => rfl
  | cons a as ih => simp [headMatch, ih]

theorem subList_cons_of_subList (n t : List Char) (c : Char)
    (h : subList n t = true) : subList n (c :: t) = true := by
  simp [subList, h]

/-- A needle occurs in any haystack that contains it between two pieces. -/
theorem subList_append_self (n p s : List Char) :
    subList n (p ++ n ++ s) = true := by
  induction p with
  | nil =>
      cases n with
      | nil =>
          cases s with
          | nil => rfl
          | cons c cs => simp [subList, headMatch]
      | cons a as =>
          show (headMatch (a :: as) ((a :: as) ++ s) || subList (a :: as) (as ++ s)) = true
          rw [headMatch_append]
          rfl
  | cons c cs ih => exact subList_cons_of_subList _ _ _ ih

theorem jsRound_nonneg (x : ℚ) (h : 0 ≤ x) : 0 ≤ jsRound x := by
  have : (0 : ℚ) ≤ x + 1/2 := by linarith
  exact_mod_cast Int.le_floor.mpr (by exact_mod_cast this)

theorem jsRound_le_of_le (x : ℚ) (b : ℤ) (h : x ≤ b) : jsRound x ≤ b := by
  have h2 : x + 1/2 < ((b + 1 : ℤ) : ℚ) := by push_cast; linarith
  exact Int.lt_add_one_iff.mp (Int.floor_lt.mpr h2)

theorem keywordMatches_eq (q : String) :
    keywordMatches q =
      ([(Cat.velocity, catCount q .velocity), (.bugs, catCount q .bugs),
        (.resolution, catCount q .resolution), (.trends, catCount q .trends),
        (.performance, catCount q .performance)]).filter (fun m => 0 < m.2) := rfl

theorem bestCat_eq_pick5 (q : String) :
    bestCat q = pick5 (catCount q .velocity) (catCount q .bugs)
      (catCount q .resolution) (catCount q .trends) (catCount q .performance) := by
  unfold bestCat bestMatch pick5
  rw [← keywordMatches_eq]
  cases keywordMatches q <;> rfl

theorem cnt5_catCount (q : String) (d : Cat) :
    cnt5 (catCount q .velocity) (catCount q .bugs) (catCount q .resolution)
      (catCount q .trends) (catCount q .performance) d = catCount q d := by
  cases d <;> rfl

set_option maxHeartbeats 2000000 in
/-- Full characterization of the `reduce`-based pick over five explicit
counts: the result scores positive, attains the maximum, and is strictly
above every category that comes later in declaration order. -/
theorem pick5_spec (cv cb cr ct cp : Nat) (c : Cat)
    (h : pick5 cv cb cr ct cp = some c) :
    0 < cnt5 cv cb cr ct cp c ∧ (∀ d, cnt5 cv cb cr ct cp d ≤ cnt5 cv cb cr ct cp c) ∧
      (∀ d, catOrd c < catOrd d → cnt5 cv cb cr ct cp d < cnt5 cv cb cr ct cp c) := by
  rcases cv with _ | cv <;> rcases cb with _ | cb <;> rcases cr with _ | cr <;>
    rcases ct with _ | ct <;> rcases cp with _ | cp <;>
    revert h <;> simp only [pick5, List.filter, List.foldl, decide_eq_true_eq] <;>
    norm_num <;> try split_ifs
  all_goals intro h
  all_goals first
    | exact Option.noConfusion h
    | (cases h;
       exact ⟨by simp [cnt5] <;> omega,
         fun d => by
           cases d <;>
             first
               | omega
               | (simp_all [cnt5, catOrd]; omega)
               | simp_all [cnt5, catOrd],
         fun d hd => by
           cases d <;>
             first
               | omega
               | (simp_all [cnt5, catOrd]; omega)
               | simp_all [cnt5, catOrd]⟩)

/-- Claim C1: the spec promises `processTextQuery` never rejects, but the
code returns `this.analyzeQueryByKeywords(query)` from inside the `try`
without `await`, so when no pattern matches and the keyword fallback
dispatches to a handler that has no `try`/`catch` of its own, a failing
store surfaces as a rejection: "fix" classifies as resolution and the
returned promise rejects.  By contrast, on the pattern path the same
failure is absorbed into the generic error envelope ("average fix time"
matches pattern rule 3, whose handler result is `return await`-ed). -/
theorem processTextQuery_reject_on_fallback :
    processTextQuery DB.down "fix" = Except.error () ∧
      processTextQuery DB.down "average fix time" =
        .ok { query := "average fix time", result := none
              interpretation := "I encountered an error processing your request. Please try again or rephrase your question." } :=
  ⟨by decide, by decide⟩

/-- Claim C2 counterexample: "sprint bug" scores exactly one keyword in
the velocity set and one in the bugs set (all other categories zero), yet
it classifies as bugs, not velocity — the `reduce` keeps the CURRENT
element on ties, so the later category wins — and the query accordingly
dispatches to the bug-count handler. -/
theorem keyword_tie_goes_to_bugs :
    catCount "sprint bug" .velocity = 1 ∧ catCount "sprint bug" .bugs = 1 ∧
      catCount "sprint bug" .resolution = 0 ∧ catCount "sprint bug" .trends = 0 ∧
      catCount "sprint bug" .performance = 0 ∧
      bestCat "sprint bug" = some .bugs ∧
      processTextQuery DB.down "sprint bug" =
        .ok { query := "sprint bug", result := none
              interpretation := "Failed to retrieve bug statistics. Please try again later." } := by
  decide

theorem pick5_none (cv cb cr ct cp : Nat) (h : pick5 cv cb cr ct cp = none) :
    cv = 0 ∧ cb = 0 ∧ cr = 0 ∧ ct = 0 ∧ cp = 0 := by
  rcases cv with _ | cv <;> rcases cb with _ | cb <;> rcases cr with _ | cr <;>
    rcases ct with _ | ct <;> rcases cp with _ | cp <;>
    simp_all [pick5, List.filter]

/-- Claim C2 (amended): each category's score is the number of its
keywords occurring as substrings of the lower-cased query; the classifier
fails only when every score is zero, and otherwise the winning category
scores positive, attains the maximum score, and strictly exceeds every
category LATER in declaration order — so ties on the highest score
resolve to the latest tied category (velocity+bugs ties classify as
bugs), not the earliest. -/
theorem keyword_classifier_spec (q : String) :
    (bestCat q = none → ∀ d, catCount q d = 0) ∧
      ∀ c, bestCat q = some c →
        0 < catCount q c ∧ (∀ d, catCount q d ≤ catCount q c) ∧
          (∀ d, catOrd c < catOrd d → catCount q d < catCount q c) := by
  constructor
  · intro h d
    have h0 := pick5_none _ _ _ _ _ ((bestCat_eq_pick5 q) ▸ h)
    obtain ⟨h1, h2, h3, h4, h5⟩ := h0
    cases d <;> assumption
  · intro c h
    have h5 := pick5_spec _ _ _ _ _ c ((bestCat_eq_pick5 q) ▸ h)
    exact ⟨by simpa [cnt5_catCount] using h5.1,
      fun d => by simpa [cnt5_catCount] using h5.2.1 d,
      fun d hd => by simpa [cnt5_catCount] using h5.2.2 d hd⟩

/-- Witness for `keyword_classifier_spec` at the concrete query
"velocity". -/
theorem keyword_classifier_spec_witness :
    bestCat "velocity" = some Cat.velocity ∧ 0 < catCount "velocity" Cat.velocity :=
  ⟨by decide, ((keyword_classifier_spec "velocity").2 Cat.velocity (by decide)).1⟩

/-- Claim C9: the quarterly-trends envelope agrees with the all-teams
velocity envelope on `query` and `result` for every store behavior, and
only the interpretation is replaced by the fixed guidance text. -/
theorem trends_delegates_to_velocity (db : DB) (q : String) :
    (handleQuarterlyTrendsQuery db q).query = (handleVelocityQuery db q "all").query ∧
      (handleQuarterlyTrendsQuery db q).result = (handleVelocityQuery db q "all").result ∧
      (handleQuarterlyTrendsQuery db q).interpretation =
        "Showing Q1 velocity trends across all teams. " ++
        "Try being more specific like 'Q2 bugs for Frontend team'" :=
  ⟨rfl, rfl, rfl⟩

set_option maxHeartbeats 1600000 in
/-- Claim C7: the resolution-time and completed-tickets handlers ignore
their team argument entirely (same result for every pair of team
arguments, every query and every store behavior), while the velocity and
bug-count handlers honor the team filter, shown on a concrete two-team
store where filtering changes the result. -/
theorem team_filter_asymmetry :
    (∀ (db : DB) (q a b : String),
        handleResolutionTimeQuery db q a = handleResolutionTimeQuery db q b) ∧
      (∀ (db : DB) (q a b : String),
        handleCompletedTicketsQuery db q a = handleCompletedTicketsQuery db q b) ∧
      handleVelocityQuery (DB.ok stTwoTeams) "q" "beta" ≠
        handleVelocityQuery (DB.ok stTwoTeams) "q" "all" ∧
      handleBugCountQuery (DB.ok stTwoTeams) "q" "beta" ≠
        handleBugCountQuery (DB.ok stTwoTeams) "q" "all" := by
  refine ⟨fun db q a b => rfl, fun db q a b => rfl, ?_, ?_⟩
  · intro h
    have h2 := congrArg (fun e =>
      match e.result with
      | some (.velocity _ _ n _) => n
      | _ => 0) h
    simp [handleVelocityQuery, velocityEnvelope, teamSprints5, allSprints5,
      orderByEndDesc, sprintDoneTickets, stTwoTeams, findTeamI, jsLower,
      jsLowerChar, List.insertionSort, List.orderedInsert, byEndDesc] at h2
  · intro h
    have h2 := congrArg (fun e =>
      match e.result with
      | some (.bugs _ t _ _ _) => t
      | _ => 0) h
    simp [handleBugCountQuery, bugEnvelope, countTickets90, countBugs90,
      cutoff90, stTwoTeams, findTeamI, jsLower, jsLowerChar] at h2

/-- Witness applying the universal part of `team_filter_asymmetry`. -/
theorem team_filter_asymmetry_witness :
    handleResolutionTimeQuery DB.down "q" "alpha" =
      handleResolutionTimeQuery DB.down "q" "beta" :=
  team_filter_asymmetry.1 DB.down "q" "alpha" "beta"

/-- Claim C4 counterexample: the resolution-time handler, handed the
nonexistent team token "ghost", does NOT return the null-result
"Team not found" envelope: it ignores the token and answers the
unfiltered all-teams query with a non-null result whose interpretation
does not mention the token. -/
theorem resolution_ignores_missing_team :
    findTeamI stTwoTeams "ghost" = none ∧
      handleResolutionTimeQuery (DB.ok stTwoTeams) "avg fix time for ghost" "ghost" =
        .ok { query := "avg fix time for ghost"
              result := some (.resolution (3/2) 2 "days")
              interpretation := "Average resolution time is 2 days based on 2 resolved tickets." } := by
  refine ⟨by decide, ?_⟩
  simp only [handleResolutionTimeQuery, doneResolved, stTwoTeams]
  norm_num [jsRound, round2]
  rfl

/-- Claim C4 (amended): the velocity and bug-count handlers — the two
handlers that resolve a team — short-circuit on an unknown, non-"all"
team token with a null-result envelope whose interpretation contains the
literal token, and do not fall through to an unfiltered query.  (The
resolution-time, completed-tickets and team-performance handlers ignore
the team token entirely; see `team_filter_asymmetry` and the
counterexample.) -/
theorem team_notfound_short_circuits (s : Store) (q tn : String)
    (h1 : tn ≠ "all") (h2 : findTeamI s tn = none) :
    handleVelocityQuery (DB.ok s) q tn =
      { query := q, result := none, interpretation := notFoundMsg tn } ∧
      handleBugCountQuery (DB.ok s) q tn =
        { query := q, result := none, interpretation := notFoundMsg tn } ∧
      subList tn.toList (notFoundMsg tn).toList = true := by
  refine ⟨?_, ?_, ?_⟩
  · simp [handleVelocityQuery, h2, h1]
  · simp [handleBugCountQuery, h2, h1]
  · show subList tn.toList
      (("Team \"" ++ tn ++ "\" not found. Try one of our team names.").toList) = true
    have hsplit :
        ("Team \"" ++ tn ++ "\" not found. Try one of our team names.").toList
          = "Team \"".toList ++ tn.toList ++
            "\" not found. Try one of our team names.".toList := by
      show ("Team \"" ++ tn ++ "\" not found. Try one of our team names.").data = _
      rw [String.data_append, String.data_append]
      rfl
    rw [hsplit]
    exact subList_append_self _ _ _

/-- Witness for `team_notfound_short_circuits` on a concrete store and
token. -/
theorem team_notfound_short_circuits_witness :
    handleVelocityQuery (DB.ok stTwoTeams) "show velocity for team ghost" "ghost" =
      { query := "show velocity for team ghost", result := none
        interpretation := notFoundMsg "ghost" } :=
  (team_notfound_short_circuits stTwoTeams "show velocity for team ghost" "ghost"
    (by decide) (by decide)).1

/-- `Math.round((a/b)*100)` is an integer percentage in `[0, 100]` when
`a ≤ b` and `b > 0`. -/
theorem ratePct_bounds (a b : Nat) (hab : a ≤ b) (hb : 0 < b) :
    0 ≤ jsRound ((a : ℚ) / (b : ℚ) * 100) ∧
      jsRound ((a : ℚ) / (b : ℚ) * 100) ≤ 100 := by
  have hb' : (0 : ℚ) < b := by exact_mod_cast hb
  have hx0 : (0 : ℚ) ≤ (a : ℚ) / b * 100 := by positivity
  have hx1 : (a : ℚ) / b ≤ 1 := by
    rw [div_le_one hb']
    exact_mod_cast hab
  have hx2 : (a : ℚ) / b * 100 ≤ 100 := by nlinarith
  exact ⟨jsRound_nonneg _ hx0,
    jsRound_le_of_le _ 100 (by exact_mod_cast hx2)⟩

/-- Claim C8: for every store, the team-performance handler returns one
entry per existing team — regardless of the (ignored) team argument — and
each entry's completionRate and bugRate are integer-rounded percentages in
`[0, 100]`, 0 for a team with no tickets. -/
theorem team_performance_spec (s : Store) (q m : String) :
    handleTeamPerformanceQuery (DB.ok s) q m =
      .ok { query := q, result := some (.performance (perfEntries s))
            interpretation := "Performance overview for " ++ toString s.teams.length ++
              " team(s) showing completion rates, bug rates, and team sizes." } ∧
      (perfEntries s).length = s.teams.length ∧
      (∀ m', handleTeamPerformanceQuery (DB.ok s) q m' =
        handleTeamPerformanceQuery (DB.ok s) q m) ∧
      (∀ t ∈ s.teams, (teamTickets s t).length = 0 →
        (perfEntry s t).completionRate = 0 ∧ (perfEntry s t).bugRate = 0) ∧
      ∀ e ∈ perfEntries s,
        0 ≤ e.completionRate ∧ e.completionRate ≤ 100 ∧
          0 ≤ e.bugRate ∧ e.bugRate ≤ 100 := by
  refine ⟨rfl, by simp [perfEntries], fun m' => rfl,
    fun t ht h0 => by simp [perfEntry, h0], ?_⟩
  intro e he
  obtain ⟨t, ht, rfl⟩ := List.mem_map.mp he
  by_cases htk : 0 < (teamTickets s t).length
  · have h1 := ratePct_bounds
      ((teamTickets s t).filter (fun tk => tk.status == .DONE)).length
      (teamTickets s t).length (List.length_filter_le _ _) htk
    have h2 := ratePct_bounds
      ((teamTickets s t).filter (fun tk => tk.type == .BUG)).length
      (teamTickets s t).length (List.length_filter_le _ _) htk
    simp only [perfEntry, htk, if_true]
    exact ⟨h1.1, h1.2, h2.1, h2.2⟩
  · simp [perfEntry, htk]

/-- Witness for `team_performance_spec`: the Alpha entry of the concrete
two-team store is within bounds. -/
theorem team_performance_spec_witness :
    0 ≤ (perfEntry stTwoTeams ⟨1, "Alpha"⟩).completionRate ∧
      (perfEntry stTwoTeams ⟨1, "Alpha"⟩).completionRate ≤ 100 ∧
      0 ≤ (perfEntry stTwoTeams ⟨1, "Alpha"⟩).bugRate ∧
      (perfEntry stTwoTeams ⟨1, "Alpha"⟩).bugRate ≤ 100 :=
  (team_performance_spec stTwoTeams "q" "m").2.2.2.2 _
    (List.mem_map_of_mem (perfEntry stTwoTeams) (by decide))

/-! ### Lemmas about the completed-tickets accumulator -/

theorem sumCompleted_bump (n : String) (sp : Int) (acc : List (String × TeamStat)) :
    sumCompleted (bump n sp acc) = sumCompleted acc + 1 := by
  induction acc with
  | nil => rfl
  | cons hd tl ih =>
      obtain ⟨k, st⟩ := hd
      by_cases h : k == n
      · simp [bump, h, sumCompleted]
        omega
      · simp [bump, h, sumCompleted] at ih ⊢
        omega

theorem statD_bump (m n : String) (sp : Int) (acc : List (String × TeamStat)) :
    statD m (bump n sp acc) =
      if m = n then
        ⟨(statD n acc).completed + 1, (statD n acc).storyPoints + sp⟩
      else statD m acc := by
  induction acc with
  | nil =>
      by_cases h : n == m
      · have h' : n = m := by simpa using h
        subst h'
        simp [bump, statD]
      · have h' : ¬n = m := by simpa using h
        simp [bump, statD, h, show ¬m = n from fun hx => h' hx.symm]
  | cons hd tl ih =>
      obtain ⟨k, st⟩ := hd
      by_cases hk : k == n
      · have hk' : k = n := by simpa using hk
        subst hk'
        simp only [bump, if_pos hk]
        by_cases hm : k == m
        · have hm' : k = m := by simpa using hm
          subst hm'
          simp [statD]
        · have hm' : ¬k = m := by simpa using hm
          simp [statD, hm, show ¬m = k from fun hx => hm' hx.symm]
      · have hk' : ¬k = n := by simpa using hk
        simp only [bump, if_neg hk]
        by_cases hm : k == m
        · have hm' : k = m := by simpa using hm
          subst hm'
          simp [statD, hk, show ¬k = n from hk']
        · simp [statD, hm, ih, hk]

theorem keysOf_bump_mem (m n : String) (sp : Int) (acc : List (String × TeamStat)) :
    m ∈ keysOf (bump n sp acc) ↔ m ∈ keysOf acc ∨ m = n := by
  induction acc with
  | nil => simp [bump, keysOf]
  | cons hd tl ih =>
      obtain ⟨k, st⟩ := hd
      by_cases hk : k == n
      · have hk' : k = n := by simpa using hk
        subst hk'
        simp only [bump, if_pos hk, keysOf, List.map_cons, List.mem_cons]
        tauto
      · simp only [bump, if_neg hk, keysOf, List.map_cons,
          List.mem_cons] at ih ⊢
        tauto

theorem keysOf_bump_nodup (n : String) (sp : Int) (acc : List (String × TeamStat))
    (h : (keysOf acc).Nodup) : (keysOf (bump n sp acc)).Nodup := by
  induction acc with
  | nil => simp [bump, keysOf]
  | cons hd tl ih =>
      obtain ⟨k, st⟩ := hd
      simp only [keysOf, List.map_cons, List.nodup_cons] at h
      by_cases hk : k == n
      · simp only [bump, if_pos hk, keysOf, List.map_cons, List.nodup_cons]
        exact ⟨h.1, h.2⟩
      · simp only [bump, if_neg hk, keysOf, List.map_cons,
          List.nodup_cons]
        refine ⟨?_, ih h.2⟩
        intro hmem
        rcases (keysOf_bump_mem k n sp tl).mp hmem with h1 | h2
        · exact h.1 h1
        · exact absurd h2 (by simpa using hk)

theorem mem_statD (n : String) (st : TeamStat) (l : List (String × TeamStat))
    (hnd : (keysOf l).Nodup) (hmem : (n, st) ∈ l) : statD n l = st := by
  induction l with
  | nil => cases hmem
  | cons hd tl ih =>
      obtain ⟨k, st'⟩ := hd
      simp only [keysOf, List.map_cons, List.nodup_cons] at hnd
      rcases List.mem_cons.mp hmem with heq | htl
      · injection heq with h1 h2
        subst h1
        subst h2
        simp [statD]
      · have hk : ¬(k = n) := by
          intro hx
          subst hx
          exact hnd.1 (List.mem_map_of_mem Prod.fst htl)
        have hkn : ¬((k == n) = true) := by simpa using hk
        simp only [statD, if_neg hkn]
        exact ih hnd.2 htl

theorem sumCompleted_fold {α : Type} (nm : α → String) (vp : α → Int)
    (l : List α) (acc : List (String × TeamStat)) :
    sumCompleted (l.foldl (fun a x => bump (nm x) (vp x) a) acc) =
      sumCompleted acc + l.length := by
  induction l generalizing acc with
  | nil => simp
  | cons x xs ih =>
      simp only [List.foldl_cons, List.length_cons]
      rw [ih, sumCompleted_bump]
      omega

theorem statD_fold {α : Type} (nm : α → String) (vp : α → Int)
    (l : List α) (acc : List (String × TeamStat)) (n : String) :
    statD n (l.foldl (fun a x => bump (nm x) (vp x) a) acc) =
      ⟨(statD n acc).completed + (l.filter (fun x => nm x == n)).length,
       (statD n acc).storyPoints + ((l.filter (fun x => nm x == n)).map vp).sum⟩ := by
  induction l generalizing acc with
  | nil => simp
  | cons x xs ih =>
      simp only [List.foldl_cons]
      rw [ih, statD_bump]
      by_cases h : nm x == n
      · have h' : n = nm x := by
          have := (by simpa using h : nm x = n)
          exact this.symm
        simp only [if_pos h', List.filter_cons, h, if_pos, List.length_cons,
          List.map_cons, List.sum_cons, TeamStat.mk.injEq]
        rw [h']
        constructor
        · omega
        · ring
      · have h' : ¬(n = nm x) := by
          intro hx
          exact absurd (by simpa using hx.symm) h
        simp [if_neg h', List.filter_cons, h]

theorem keys_nodup_fold {α : Type} (nm : α → String) (vp : α → Int)
    (l : List α) (acc : List (String × TeamStat))
    (h : (keysOf acc).Nodup) :
    (keysOf (l.foldl (fun a x => bump (nm x) (vp x) a) acc)).Nodup := by
  induction l generalizing acc with
  | nil => exact h
  | cons x xs ih => exact ih _ (keysOf_bump_nodup _ _ _ h)

/-- Claim C10: in every completed-tickets envelope, `totalCompleted` is
the sum of the per-team `completed` counters, and each `byTeam` entry
holds exactly the count and story-point sum (missing story points counted
as 0) of the DONE tickets of the team with that name. -/
theorem completed_tickets_spec (s : Store) (q m : String) :
    handleCompletedTicketsQuery (DB.ok s) q m =
      .ok { query := q
            result := some (.completed (doneTicketsOf s).length (teamStatsOf s))
            interpretation := "Found " ++ toString (doneTicketsOf s).length ++
              " completed tickets across " ++ toString (teamStatsOf s).length ++
              " team(s)." } ∧
      sumCompleted (teamStatsOf s) = (doneTicketsOf s).length ∧
      ∀ p ∈ teamStatsOf s,
        p.2.completed = (doneOfName s p.1).length ∧
          p.2.storyPoints =
            ((doneOfName s p.1).map (fun t => t.storyPoints.getD 0)).sum := by
  refine ⟨rfl, ?_, ?_⟩
  · have h := sumCompleted_fold (ticketTeamName s) (fun t => t.storyPoints.getD 0)
      (doneTicketsOf s) []
    simpa [teamStatsOf, sumCompleted] using h
  · intro p hp
    obtain ⟨n, st⟩ := p
    have hnd : (keysOf (teamStatsOf s)).Nodup :=
      keys_nodup_fold (ticketTeamName s) (fun t => t.storyPoints.getD 0)
        (doneTicketsOf s) [] (by simp [keysOf])
    have hst : statD n (teamStatsOf s) = st := mem_statD n st (teamStatsOf s) hnd hp
    have hfold : statD n (teamStatsOf s) =
        ⟨((doneTicketsOf s).filter (fun t => ticketTeamName s t == n)).length,
         (((doneTicketsOf s).filter (fun t => ticketTeamName s t == n)).map
           (fun t => t.storyPoints.getD 0)).sum⟩ := by
      have h := statD_fold (ticketTeamName s) (fun t => t.storyPoints.getD 0)
        (doneTicketsOf s) [] n
      simpa [statD] using h
    rw [← hst, hfold]
    exact ⟨rfl, rfl⟩

/-- Witness for `completed_tickets_spec`: the Alpha entry of the concrete
two-team store counts 1 completed ticket worth 5 story points. -/
theorem completed_tickets_spec_witness :
    ("Alpha", (⟨1, 5⟩ : TeamStat)).2.completed = (doneOfName stTwoTeams "Alpha").length ∧
      ("Alpha", (⟨1, 5⟩ : TeamStat)).2.storyPoints =
        ((doneOfName stTwoTeams "Alpha").map (fun t => t.storyPoints.getD 0)).sum :=
  (completed_tickets_spec stTwoTeams "q" "m").2.2 ("Alpha", ⟨1, 5⟩) (by decide)

/-! ### Lemmas for the velocity and bug-count handlers -/

theorem foldl_add_eq_sum {α : Type} (f : α → Int) (l : List α) (a : Int) :
    l.foldl (fun acc x => acc + f x) a = a + (l.map f).sum := by
  induction l generalizing a with
  | nil => simp
  | cons x xs ih =>
      simp only [List.foldl_cons, List.map_cons, List.sum_cons, ih]
      ring

/-- The handler's nested `reduce` equals the sum of the per-sprint
story-point sums. -/
theorem velocity_fold_eq_sum (s : Store) (l : List Sprint) :
    l.foldl (fun sum sp =>
        sum + (sprintDoneTickets s sp).foldl
          (fun sprintSum tk => sprintSum + tk.storyPoints.getD 0) 0) 0 =
      (perSprintPoints s l).sum := by
  rw [foldl_add_eq_sum (fun sp => (sprintDoneTickets s sp).foldl
    (fun sprintSum tk => sprintSum + tk.storyPoints.getD 0) 0) l 0]
  rw [zero_add]
  unfold perSprintPoints
  congr 1
  apply List.map_congr_left
  intro sp _
  rw [foldl_add_eq_sum]
  simp

/-- The sprints a velocity query uses are the first 5 of the
end-date-descending sort of the qualifying sprints. -/
theorem usedSprints_eq (s : Store) (team : Option Team) :
    usedSprints s team = (orderByEndDesc (qualSprints s team)).take 5 := by
  cases team <;> rfl

/-- The velocity payload carries exactly the spec-side mean. -/
theorem velocityEnvelope_result (s : Store) (q tn : String) (team : Option Team) :
    (velocityEnvelope s q tn team).result =
      some (.velocity (if tn == "all" then "All Teams" else (team.map Team.name).getD "")
        (specMeanVelocity (perSprintPoints s (usedSprints s team)))
        (usedSprints s team).length "last 5 sprints") := by
  cases team <;>
    · simp only [velocityEnvelope, usedSprints, velocity_fold_eq_sum, specMeanVelocity,
        perSprintPoints, List.length_map]
      split_ifs with h1 h2 h2 <;>
        first
          | rfl
          | omega
          | (norm_num [round2, jsRound] at *)

set_option maxHeartbeats 800000 in
/-- Claim C5: the velocity handler aggregates over at most the 5
most-recently-ended qualifying sprints (team-filtered when a team is
resolved, all teams otherwise); `averageVelocity` is the 2-decimal
rounding of the mean of the per-sprint sums of DONE tickets' story points
(missing story points counted 0), `sprintsAnalyzed` is the number of
sprints fetched, and zero qualifying sprints yield average 0 with no
division. -/
theorem velocity_handler_spec (s : Store) (q tn : String) :
    (tn = "all" →
      handleVelocityQuery (DB.ok s) q tn = velocityEnvelope s q tn none) ∧
      (∀ t, tn ≠ "all" → findTeamI s tn = some t →
        handleVelocityQuery (DB.ok s) q tn = velocityEnvelope s q tn (some t)) ∧
      ∀ team : Option Team,
        (velocityEnvelope s q tn team).result =
          some (.velocity (if tn == "all" then "All Teams" else (team.map Team.name).getD "")
            (specMeanVelocity (perSprintPoints s (usedSprints s team)))
            (usedSprints s team).length "last 5 sprints") ∧
          (usedSprints s team).length ≤ 5 ∧
          (∀ x ∈ usedSprints s team, ∀ y ∈ qualSprints s team,
            y ∉ usedSprints s team → y.endDate ≤ x.endDate) ∧
          (usedSprints s team = [] →
            specMeanVelocity (perSprintPoints s (usedSprints s team)) = 0) := by
  refine ⟨?_, ?_, ?_⟩
  · intro h
    subst h
    simp [handleVelocityQuery]
  · intro t h1 h2
    simp [handleVelocityQuery, h1, h2]
  · intro team
    refine ⟨velocityEnvelope_result s q tn team, ?_, ?_, ?_⟩
    · rw [usedSprints_eq]
      exact List.length_take_le _ _
    · intro x hx y hy hyn
      rw [usedSprints_eq] at hx hyn
      have hymem : y ∈ orderByEndDesc (qualSprints s team) := by
        unfold orderByEndDesc
        exact (List.mem_insertionSort byEndDesc).mpr hy
      have hydrop : y ∈ (orderByEndDesc (qualSprints s team)).drop 5 := by
        rcases List.mem_append.mp
          ((List.take_append_drop 5 (orderByEndDesc (qualSprints s team))) ▸ hymem)
          with h | h
        · exact absurd h hyn
        · exact h
      have hsorted : List.Sorted byEndDesc (orderByEndDesc (qualSprints s team)) :=
        List.sorted_insertionSort byEndDesc (qualSprints s team)
      exact hsorted.rel_of_mem_take_of_mem_drop hx hydrop
    · intro h
      simp [h, specMeanVelocity, perSprintPoints]

/-- Witness for `velocity_handler_spec` in all-teams mode on the concrete
store. -/
theorem velocity_handler_spec_witness :
    handleVelocityQuery (DB.ok stTwoTeams) "q" "all" =
      velocityEnvelope stTwoTeams "q" "all" none :=
  (velocity_handler_spec stTwoTeams "q" "all").1 rfl

/-- The code's `Math.round(bugRate * 100) / 100` over the guarded rate
equals the claim's `round(bug/total*10000)/100` formula with its 0 case. -/
theorem round2_eq_specBugRate (b t : Nat) :
    round2 (if 0 < t then ((b : ℚ) / (t : ℚ)) * 100 else 0) = specBugRate b t := by
  by_cases h : 0 < t
  · simp only [if_pos h, specBugRate, round2]
    congr 2
    ring_nf
  · simp only [if_neg h, specBugRate, h]
    norm_num [round2, jsRound]

/-- The bug payload carries exactly the spec-side counts and rate. -/
theorem bugEnvelope_result (s : Store) (q tn : String) (team : Option Team) :
    (bugEnvelope s q tn team).result =
      some (.bugs (if tn == "all" then "All Teams" else (team.map Team.name).getD "")
        (countTickets90 s team) (countBugs90 s team)
        (specBugRate (countBugs90 s team) (countTickets90 s team)) "last quarter") := by
  simp only [bugEnvelope, round2_eq_specBugRate]

/-- Claim C6: the bug-count handler counts all tickets created in the
last 90 days (team-filtered when a team is resolved) and the BUG-typed
tickets among them; `bugRate = round(bug/total*10000)/100` when the total
is positive, and 0 when the total is 0 — no division by zero. -/
theorem bug_handler_spec (s : Store) (q tn : String) :
    (tn = "all" →
      handleBugCountQuery (DB.ok s) q tn = bugEnvelope s q tn none) ∧
      (∀ t, tn ≠ "all" → findTeamI s tn = some t →
        handleBugCountQuery (DB.ok s) q tn = bugEnvelope s q tn (some t)) ∧
      ∀ team : Option Team,
        (bugEnvelope s q tn team).result =
          some (.bugs (if tn == "all" then "All Teams" else (team.map Team.name).getD "")
            (countTickets90 s team) (countBugs90 s team)
            (specBugRate (countBugs90 s team) (countTickets90 s team)) "last quarter") ∧
          (countTickets90 s team = 0 →
            specBugRate (countBugs90 s team) (countTickets90 s team) = 0) := by
  refine ⟨?_, ?_, ?_⟩
  · intro h
    subst h
    simp [handleBugCountQuery]
  · intro t h1 h2
    simp [handleBugCountQuery, h1, h2]
  · intro team
    refine ⟨bugEnvelope_result s q tn team, ?_⟩
    intro h
    simp [specBugRate, h]

/-- Witness for `bug_handler_spec` in all-teams mode on the concrete
store. -/
theorem bug_handler_spec_witness :
    handleBugCountQuery (DB.ok stTwoTeams) "q" "all" =
      bugEnvelope stTwoTeams "q" "all" none :=
  (bug_handler_spec stTwoTeams "q" "all").1 rfl

/-! ### First-match semantics of the pattern loop -/

theorem firstPatAux_some {rs : List Rx} {cs : List Char} {i j : Nat} {caps : Caps}
    (h : firstPatAux rs cs i = some (j, caps)) :
    i ≤ j ∧ j - i < rs.length ∧
      rxSearch (rs.getD (j - i) (L "")) cs = some caps ∧
      ∀ m, m < j - i → rxSearch (rs.getD m (L "")) cs = none := by
  induction rs generalizing i with
  | nil => simp [firstPatAux] at h
  | cons r rest ih =>
      rw [firstPatAux] at h
      cases hr : rxSearch r cs with
      | some c0 =>
          rw [hr] at h
          injection h with h'
          injection h' with h1 h2
          subst h1
          subst h2
          refine ⟨le_refl _, by simp, ?_, ?_⟩
          · simpa using hr
          · intro m hm
            omega
      | none =>
          rw [hr] at h
          obtain ⟨hij, hlen, hmatch, hmin⟩ := ih h
          have hij' : i ≤ j := by omega
          have hsub : j - i = (j - (i + 1)) + 1 := by omega
          refine ⟨hij', by simp; omega, ?_, ?_⟩
          · rw [hsub]
            simpa using hmatch
          · intro m hm
            match m with
            | 0 => simpa using hr
            | m' + 1 =>
                have : m' < j - (i + 1) := by omega
                simpa using hmin m' this

theorem firstPatAux_none {rs : List Rx} {cs : List Char} {i : Nat}
    (h : firstPatAux rs cs i = none) : ∀ r ∈ rs, rxSearch r cs = none := by
  induction rs generalizing i with
  | nil => simp
  | cons r rest ih =>
      rw [firstPatAux] at h
      cases hr : rxSearch r cs with
      | some c0 => rw [hr] at h; cases h
      | none =>
          rw [hr] at h
          intro r' hr'
          rcases List.mem_cons.mp hr' with rfl | hmem
          · exact hr
          · exact ih h r' hmem

/-- Claim C3: if the normalized query matches pattern rule `k`, the
interpreter dispatches to the first matching rule `j ≤ k` — no later
rule's handler runs, and the keyword classifier is never consulted: the
result is exactly the (error-caught) output of rule `j`'s handler on the
team token captured by rule `j`. -/
theorem pattern_precedence (q : String) (k : Nat) (hk : k < 6)
    (hm : (rxSearch (patRules.getD k (L "")) (normOf q)).isSome = true) :
    (firstPatAux patRules (normOf q) 0).isSome = true ∧
      ∀ j caps, firstPatAux patRules (normOf q) 0 = some (j, caps) →
        j ≤ k ∧ rxSearch (patRules.getD j (L "")) (normOf q) = some caps ∧
          (∀ i, i < j → rxSearch (patRules.getD i (L "")) (normOf q) = none) ∧
          ∀ db, processTextQuery db q =
            .ok (catchEnv q (runHandler db j q (teamTokenOf caps))) := by
  constructor
  · cases hfp : firstPatAux patRules (normOf q) 0 with
    | some v => rfl
    | none =>
        have hall := firstPatAux_none hfp
        have hk' : k < patRules.length := by simpa [patRules] using hk
        have hmem : patRules.getD k (L "") ∈ patRules := by
          rw [List.getD_eq_getElem patRules (L "") hk']
          exact List.getElem_mem hk'
        rw [hall _ hmem] at hm
        cases hm
  · intro j caps hfp
    obtain ⟨_, hlen, hmatch, hmin⟩ := firstPatAux_some hfp
    simp only [Nat.sub_zero] at hlen hmatch hmin
    have hjk : j ≤ k := by
      by_contra hc
      have hkj : k < j := by omega
      rw [hmin k hkj] at hm
      cases hm
    refine ⟨hjk, hmatch, hmin, ?_⟩
    intro db
    simp only [processTextQuery, hfp]

/-- Witness for `pattern_precedence`: "show velocity this quarter"
matches rule 6 (`quarter`) but dispatches to rule 1, the first match. -/
theorem pattern_precedence_witness :
    processTextQuery DB.down "show velocity this quarter" =
      .ok (catchEnv "show velocity this quarter"
        (runHandler DB.down 0 "show velocity this quarter"
          (teamTokenOf [(2, ['v', 'e', 'l', 'o', 'c', 'i', 't', 'y']),
            (1, ['s', 'h', 'o', 'w'])]))) :=
  ((pattern_precedence "show velocity this quarter" 5 (by decide) (by decide)).2
    0 [(2, ['v', 'e', 'l', 'o', 'c', 'i', 't', 'y']), (1, ['s', 'h', 'o', 'w'])]
    (by decide)).2.2.2 DB.down

end TPRP
